import Mathlib

/-!
Verification of the chidb paged B-Tree storage core (src/lib.rs, src/pager.rs).

The Rust source is shallowly embedded: byte buffers become `List Nat` (every
encoder keeps values below 256 via `% 256`), file contents become a `List Nat`,
machine integers become `Nat` with explicit bounds where overflow matters, and
fallible operations return `Except ChiError` or, where the source can panic,
the three-valued `Res` type whose `trap` constructor marks a Rust panic.
Operating-system level io errors (the only way several source functions can
fail) are outside the model, so those paths always return `ok`.
-/

set_option maxRecDepth 8000

namespace Chidb

/-- Models PAGE_SIZE in src/pager.rs: 4096 * 4 bytes. -/
def PAGE_SIZE : Nat := 4096 * 4

/-- Models HEADER_SIZE in src/pager.rs: the fixed 100-byte file header. -/
def HEADER_SIZE : Nat := 100

/-- Models MAGIC_BYTES_SIZE in src/lib.rs. -/
def MAGIC_BYTES_SIZE : Nat := 15

/-- Models MAGIC_BYTES in src/lib.rs: the ASCII codes of the fixed 15-byte
magic string (S Q L i t e, space, f o r m a t, space, 3). -/
def MAGIC_BYTES : List Nat :=
  [83, 81, 76, 105, 116, 101, 32, 102, 111, 114, 109, 97, 116, 32, 51]

/-- Models PAGE_CACHE_SIZE_INITIAL in src/lib.rs. -/
def PAGE_CACHE_SIZE_INITIAL : Nat := 20000

/-- Little-endian encoding of a machine integer into k bytes, as produced by
the u16 and u32 to_le_bytes calls in the source. -/
def leBytes : Nat → Nat → List Nat
  | 0, _ => []
  | k + 1, x => x % 256 :: leBytes k (x / 256)

/-- Little-endian value of a byte list, as computed by u16 and u32
from_le_bytes in the source. -/
def leVal : List Nat → Nat
  | [] => 0
  | b :: r => b + 256 * leVal r

/-- Reading n bytes from a stream into a zero-initialized n-byte array: the
available bytes are copied and the tail stays zero. This models the
Read calls of the source, which read into pre-zeroed arrays and leave the
tail untouched on a short read (BufReader over a slice, and file reads at
end of file). -/
def padTo (n : Nat) (l : List Nat) : List Nat := (l ++ List.replicate n 0).take n

/-- Writing a byte buffer into a file at a given position, with the gap
zero-filled when the file is shorter than the position (sparse-file
semantics of seek-then-write). -/
def writeAt (file : List Nat) (pos : Nat) (bytes : List Nat) : List Nat :=
  padTo pos file ++ bytes ++ file.drop (pos + bytes.length)

/-- Models the ChiError enum of src/lib.rs. The io variant carries no payload
here because os-level error kinds are outside the model. -/
inductive ChiError where
  | EPageNo
  | NoHeader
  | Ecorruptheader
  | Enomem
  | ioErr
deriving DecidableEq

/-- Result of a computation that, in the source, can also panic: `trap` marks
a Rust panic (an abort, not a value the caller can observe). -/
inductive Res (α : Type) where
  | ok : α → Res α
  | err : ChiError → Res α
  | trap : Res α
deriving DecidableEq

/-- Models the MemPage struct of src/pager.rs: page number, the offset where
node-relevant bytes start, and the full page byte buffer. -/
structure MemPage where
  n_page : Nat
  offset : Nat
  data : List Nat
deriving DecidableEq

/-- Models MemPage::data(): the slice of the page buffer from offset onward. -/
def MemPage.dataAt (p : MemPage) : List Nat := p.data.drop p.offset

/-- Models MemPage::set_data of src/pager.rs: the new buffer is the first
offset bytes of the old buffer followed by the argument, with no length
check of any kind (the source body is two extend_from_slice calls). -/
def MemPage.set_data (p : MemPage) (raw : List Nat) : MemPage :=
  { p with data := p.data.take p.offset ++ raw }

/-- Models the Pager struct of src/pager.rs: the file contents stand in for
the os file handle, total_pages is the in-memory page counter. -/
structure Pager where
  total_pages : Nat
  file : List Nat
deriving DecidableEq

/-- Models Pager::open: opens (or creates) the file and always starts the
in-memory page counter at 0, whatever the file contains. -/
def Pager.openFile (contents : List Nat) : Pager :=
  { total_pages := 0, file := contents }

/-- Models Pager::is_empty: true iff the file length is 0. -/
def Pager.is_empty (p : Pager) : Bool := p.file.isEmpty

/-- Models Pager::read_header: seeks to 0 and reads up to 100 bytes into a
zeroed 100-byte array; a file shorter than 100 bytes zero-fills the tail.
The only failure path in the source is an os io error, outside the model,
so the result is always ok. -/
def Pager.read_header (p : Pager) : Except ChiError (List Nat) :=
  Except.ok (padTo HEADER_SIZE p.file)

/-- Models Pager::write_header: writes the 100-byte header at position 0. -/
def Pager.write_header (p : Pager) (header : List Nat) : Except ChiError Pager :=
  Except.ok { p with file := writeAt p.file 0 header }

/-- Models Pager::allocate_page: increments the counter and returns the new
pager together with the allocated page number. -/
def Pager.allocate_page (p : Pager) : Pager × Nat :=
  ({ p with total_pages := p.total_pages + 1 }, p.total_pages + 1)

/-- Iterated Pager::allocate_page, used to speak about a session that has
performed k allocations. -/
def allocN (p : Pager) : Nat → Pager
  | 0 => p
  | k + 1 => ((allocN p k).allocate_page).1

/-- Models Pager::read_page of src/pager.rs: page numbers 0 and numbers above
total_pages are rejected with EPageNo; otherwise the PAGE_SIZE bytes at
position (n-1)*PAGE_SIZE are read into a zeroed buffer (short reads past
end of file leave zeros), and page 1 gets offset HEADER_SIZE + 1. -/
def Pager.read_page (p : Pager) (n : Nat) : Except ChiError MemPage :=
  if p.total_pages < n ∨ n = 0 then .error ChiError.EPageNo
  else
    let data := padTo PAGE_SIZE (p.file.drop ((n - 1) * PAGE_SIZE))
    let offset := if n = 1 then HEADER_SIZE + 1 else 0
    .ok ⟨n, offset, data⟩

/-- Models Pager::write_page of src/pager.rs: same page-number validation as
read_page, then the whole in-memory buffer (whatever its length) is
written at position (n-1)*PAGE_SIZE. -/
def Pager.write_page (p : Pager) (page : MemPage) : Except ChiError Pager :=
  if p.total_pages < page.n_page ∨ page.n_page = 0 then .error ChiError.EPageNo
  else .ok { p with file := writeAt p.file ((page.n_page - 1) * PAGE_SIZE) page.data }

/-- Models the BTreeNodeType enum of src/lib.rs. -/
inductive BTreeNodeType where
  | InternalTable
  | LeafTable
  | InternalIndex
  | LeafIndex
deriving DecidableEq

/-- Models BTreeNodeType::value of src/lib.rs. -/
def BTreeNodeType.value : BTreeNodeType → Nat
  | .InternalTable => 0x05
  | .LeafTable => 0x0D
  | .InternalIndex => 0x02
  | .LeafIndex => 0x0A

/-- Models the From impl for BTreeNodeType in src/lib.rs: the four
defined byte values decode to their kind; every other byte hits the panic
arm of the match, modelled as none. -/
def byteToNodeType (b : Nat) : Option BTreeNodeType :=
  if b = 0x05 then some .InternalTable
  else if b = 0x0D then some .LeafTable
  else if b = 0x02 then some .InternalIndex
  else if b = 0x0A then some .LeafIndex
  else none

/-- Models the BTreeNode struct of src/lib.rs: the in-memory page plus the
cached scalar header fields. -/
structure BTreeNode where
  page : MemPage
  typ : BTreeNodeType
  free_offset : Nat
  n_cells : Nat
  cells_offset : Nat
  right_page : Nat
  celloffset_array : Nat
deriving DecidableEq

/-- Models BTreeNode::new of src/lib.rs: note that celloffset_array is
initialized to 0. -/
def BTreeNode.new (page : MemPage) (typ : BTreeNodeType) : BTreeNode :=
  { page := page
    typ := typ
    free_offset := 0
    n_cells := 0
    cells_offset := PAGE_SIZE
    right_page := 0
    celloffset_array := 0 }

/-- Models BTreeNode::create of src/lib.rs: serializes the six header fields
of the fresh node (10 bytes) followed by zeros into the offset-relative
region of the page. When the region is shorter than the 10 serialized
bytes the source panics (vec length underflow / copy_from_slice length
mismatch), modelled as trap; its Result error is only io propagation. -/
def BTreeNode.create (page : MemPage) (typ : BTreeNodeType) : Res BTreeNode :=
  let node := BTreeNode.new page typ
  let region := page.dataAt
  if region.length < 10 then Res.trap
  else
    let ser := node.typ.value ::
      (leBytes 2 node.free_offset ++ leBytes 2 node.n_cells ++
        leBytes 2 node.cells_offset ++ leBytes 2 node.right_page ++
        node.celloffset_array % 256 :: List.replicate (region.length - 10) 0)
    Res.ok { node with page := { page with data := page.data.take page.offset ++ ser } }

/-- Models BTreeNode::load_from_page of src/lib.rs: sequentially reads the
type byte, four u16 fields and the u8 cell-offset-array start from the
offset-relative region (each read zero-fills when the region runs out),
then converts the type byte; an unrecognized byte panics in the source
(the From impl), modelled as trap. -/
def BTreeNode.load_from_page (page : MemPage) : Res BTreeNode :=
  let d := page.dataAt
  let t := leVal (padTo 1 d)
  let d1 := d.drop 1
  let fo := leVal (padTo 2 d1)
  let d2 := d1.drop 2
  let nc := leVal (padTo 2 d2)
  let d3 := d2.drop 2
  let co := leVal (padTo 2 d3)
  let d4 := d3.drop 2
  let rp := leVal (padTo 2 d4)
  let d5 := d4.drop 2
  let ca := leVal (padTo 1 d5)
  match byteToNodeType t with
  | some ty => Res.ok ⟨page, ty, fo, nc, co, rp, ca⟩
  | none => Res.trap

/-- Models the BTreeHeader struct of src/lib.rs. -/
structure BTreeHeader where
  magic_bytes : List Nat
  page_size : Nat
  file_change_counter : Nat
  schema_version : Nat
  page_cache_size : Nat
  user_cookie : Nat
deriving DecidableEq

/-- Models BTreeHeader::to_bytes of src/lib.rs: the six fields in order,
little endian, padded with zeros to the fixed 100-byte header size. The
source Result is io-only, so the model is total. -/
def BTreeHeader.to_bytes (h : BTreeHeader) : List Nat :=
  let w := h.magic_bytes ++
    (leBytes 2 h.page_size ++
      (leBytes 4 h.file_change_counter ++
        (leBytes 4 h.schema_version ++
          (leBytes 4 h.page_cache_size ++ leBytes 4 h.user_cookie))))
  w ++ List.replicate (HEADER_SIZE - w.length) 0

/-- Models BTreeHeader::from_bytes of src/lib.rs: sequentially reads the six
fields at the same widths in the same order, zero-filling any field the
input is too short to cover; it performs no validation. -/
def BTreeHeader.from_bytes (bytes : List Nat) : BTreeHeader :=
  let magic := padTo MAGIC_BYTES_SIZE bytes
  let r1 := bytes.drop MAGIC_BYTES_SIZE
  let ps := leVal (padTo 2 r1)
  let r2 := r1.drop 2
  let fcc := leVal (padTo 4 r2)
  let r3 := r2.drop 4
  let sv := leVal (padTo 4 r3)
  let r4 := r3.drop 4
  let pcs := leVal (padTo 4 r4)
  let r5 := r4.drop 4
  let uc := leVal (padTo 4 r5)
  ⟨magic, ps, fcc, sv, pcs, uc⟩

/-- Models the Default impl for BTreeHeader in src/lib.rs. -/
def BTreeHeader.defaultHeader : BTreeHeader :=
  { magic_bytes := MAGIC_BYTES
    page_size := PAGE_SIZE
    file_change_counter := 0
    schema_version := 0
    page_cache_size := PAGE_CACHE_SIZE_INITIAL
    user_cookie := 0 }

/-- Models the BTree struct of src/lib.rs: a façade owning one Pager. -/
structure BTree where
  pager : Pager
deriving DecidableEq

/-- Models BTree::read_header of src/lib.rs: read the raw header bytes and
decode them. -/
def BTree.read_header (bt : BTree) : Except ChiError BTreeHeader :=
  match bt.pager.read_header with
  | .error e => .error e
  | .ok bytes => .ok (BTreeHeader.from_bytes bytes)

/-- Models BTree::validate_header of src/lib.rs: decode the header and fail
with Ecorruptheader iff the magic bytes mismatch. -/
def BTree.validate_header (bt : BTree) : Except ChiError Unit :=
  match bt.read_header with
  | .error e => .error e
  | .ok header =>
    if MAGIC_BYTES = header.magic_bytes then .ok () else .error ChiError.Ecorruptheader

/-- Models BTree::initialize_header of src/lib.rs: writes the serialized
default header over the first 100 bytes of the file. The source Result is
io-only, so the model is total. -/
def BTree.init_header (bt : BTree) : BTree :=
  ⟨{ bt.pager with file := writeAt bt.pager.file 0 BTreeHeader.defaultHeader.to_bytes }⟩

/-- Models BTree::initialize_empty_table_leaf of src/lib.rs: allocate a page,
read it, create a LeafTable node on it and write the page back. -/
def BTree.init_empty_table_leaf (bt : BTree) : Res BTree :=
  let pa := bt.pager.allocate_page
  match pa.1.read_page pa.2 with
  | .error e => Res.err e
  | .ok page =>
    match BTreeNode.create page BTreeNodeType.LeafTable with
    | .trap => Res.trap
    | .err e => Res.err e
    | .ok node =>
      match pa.1.write_page node.page with
      | .error e => Res.err e
      | .ok pg => Res.ok ⟨pg⟩

/-- Models BTree::open of src/lib.rs: open the pager; an empty file gets the
default header and an empty LeafTable node on page 1, a non-empty file is
validated against the magic bytes. -/
def BTree.openFile (contents : List Nat) : Res BTree :=
  let pager := Pager.openFile contents
  if pager.is_empty then
    match BTree.init_empty_table_leaf (BTree.init_header ⟨pager⟩) with
    | .ok bt => Res.ok bt
    | .err e => Res.err e
    | .trap => Res.trap
  else
    match BTree.validate_header ⟨pager⟩ with
    | .ok _ => Res.ok ⟨pager⟩
    | .error e => Res.err e

/-- Models BTree::get_node_by_page of src/lib.rs: read the page, then decode
the node from it (which can panic on a corrupt type byte, hence Res). -/
def BTree.get_node_by_page (bt : BTree) (n : Nat) : Res BTreeNode :=
  match bt.pager.read_page n with
  | .error e => Res.err e
  | .ok page => BTreeNode.load_from_page page

/-- Models BTree::new_node of src/lib.rs: allocate a fresh page, read it,
create the node and write the page back. -/
def BTree.new_node (bt : BTree) (typ : BTreeNodeType) : Res (BTree × BTreeNode) :=
  let pa := bt.pager.allocate_page
  match pa.1.read_page pa.2 with
  | .error e => Res.err e
  | .ok page =>
    match BTreeNode.create page typ with
    | .trap => Res.trap
    | .err e => Res.err e
    | .ok node =>
      match pa.1.write_page node.page with
      | .error e => Res.err e
      | .ok pg => Res.ok (⟨pg⟩, node)

/-- Models BTree::write_node of src/lib.rs: serialize exactly the five scalar
fields type, free_offset, n_cells, cells_offset and right_page (9 bytes),
splice them into the page via MemPage::set_data, and write the page. -/
def BTree.write_node (bt : BTree) (node : BTreeNode) : Except ChiError (BTree × BTreeNode) :=
  let ser := node.typ.value ::
    (leBytes 2 node.free_offset ++ leBytes 2 node.n_cells ++
      leBytes 2 node.cells_offset ++ leBytes 2 node.right_page)
  let page := node.page.set_data ser
  match bt.pager.write_page page with
  | .error e => .error e
  | .ok p => .ok (⟨p⟩, { node with page := page })

/-- Decidable equality of Except results, for evaluating the model on
concrete inputs. -/
instance {ε α : Type} [DecidableEq ε] [DecidableEq α] : DecidableEq (Except ε α) := fun x y =>
  match x, y with
  | .ok a, .ok b =>
    if h : a = b then isTrue (by rw [h]) else isFalse (fun he => h (Except.ok.inj he))
  | .error a, .error b =>
    if h : a = b then isTrue (by rw [h]) else isFalse (fun he => h (Except.error.inj he))
  | .ok _, .error _ => isFalse (fun he => Except.noConfusion he)
  | .error _, .ok _ => isFalse (fun he => Except.noConfusion he)

/-- Fixture: a pager whose counter says one page exists over an empty file
(the file bytes of an allocated-but-never-written page are absent and read
back as zeros). -/
def c1pager : Pager := ⟨1, []⟩

/-- Fixture: the page that c1pager.read_page 1 returns; its type byte is 0,
which is not one of the four defined node kinds. -/
def c1pg : MemPage := ⟨1, HEADER_SIZE + 1, padTo PAGE_SIZE (([] : List Nat).drop ((1 - 1) * PAGE_SIZE))⟩

/-- Fixture: a page for the set_data witness. -/
def c2page : MemPage := ⟨1, 2, [9, 9, 9, 9]⟩

/-- Fixture: a small zero-filled page region for the create/load round trip
witness (the general theorems cover full PAGE_SIZE pages as well). -/
def c6page : MemPage := ⟨2, 0, List.replicate 12 0⟩

/-- Fixture: the node BTreeNode::create returns on c6page. -/
def c6node : BTreeNode :=
  ⟨⟨2, 0, [5, 0, 0, 0, 0, 0, 64, 0, 0, 0, 0, 0]⟩, .InternalTable, 0, 0, PAGE_SIZE, 0, 0⟩

/-- Fixture: a small zero-filled page region for the create field witness. -/
def c9page : MemPage := ⟨2, 0, List.replicate 16 0⟩

/-- Fixture: the node BTreeNode::create returns on c9page: note
celloffset_array = 0. -/
def c9node : BTreeNode :=
  ⟨⟨2, 0, [13, 0, 0, 0, 0, 0, 64, 0, 0, 0, 0, 0, 0, 0, 0, 0]⟩, .LeafTable, 0, 0, PAGE_SIZE, 0, 0⟩

/-- Fixture: a pager with one allocated page over an empty file, for the
header-isolation witness. -/
def c8pager : Pager := ⟨1, []⟩

/-- Fixture: the page that c8pager.read_page 1 returns. -/
def c8pg : MemPage := ⟨1, HEADER_SIZE + 1, padTo PAGE_SIZE (([] : List Nat).drop ((1 - 1) * PAGE_SIZE))⟩

/-- Fixture: a node on page 1 whose free_offset was mutated to 1 before the
write-back, as in the test test_write_first_node_not_override_file_header. -/
def c8node : BTreeNode := ⟨c8pg, .LeafTable, 1, 0, PAGE_SIZE, 0, 0⟩

/-- Fixture: the 9 bytes BTree::write_node serializes for c8node. -/
def c8ser : List Nat :=
  BTreeNodeType.LeafTable.value ::
    (leBytes 2 1 ++ leBytes 2 0 ++ leBytes 2 PAGE_SIZE ++ leBytes 2 0)

/-- Fixture: the page after set_data splices the 9 serialized bytes in. -/
def c8pg2 : MemPage := c8pg.set_data c8ser

/-- Fixture: the pair BTree::write_node returns for c8node. -/
def c8x : BTree × BTreeNode :=
  (⟨⟨1, writeAt c8pager.file ((c8pg2.n_page - 1) * PAGE_SIZE) c8pg2.data⟩⟩,
    ⟨c8pg2, .LeafTable, 1, 0, PAGE_SIZE, 0, 0⟩)

theorem leBytes_length (k x : Nat) : (leBytes k x).length = k := by
  induction k generalizing x with
  | zero => rfl
  | succ k ih => simp [leBytes, ih]

theorem leVal_leBytes {k x : Nat} (h : x < 256 ^ k) : leVal (leBytes k x) = x := by
  induction k generalizing x with
  | zero =>
    rw [Nat.pow_zero] at h
    simp [leBytes, leVal]
    omega
  | succ k ih =>
    have hx : x / 256 < 256 ^ k := by
      rw [Nat.div_lt_iff_lt_mul (by omega : 0 < 256)]
      calc x < 256 ^ (k + 1) := h
        _ = 256 ^ k * 256 := by rw [pow_succ]
    simp [leBytes, leVal, ih hx]
    omega

theorem padTo_length (n : Nat) (l : List Nat) : (padTo n l).length = n := by
  rw [padTo, List.length_take, List.length_append, List.length_replicate]
  omega

theorem padTo_eq (n : Nat) (l : List Nat) :
    padTo n l = l.take n ++ List.replicate (n - l.length) 0 := by
  rw [padTo, List.take_append_eq_append_take, List.take_replicate,
    Nat.min_eq_left (Nat.sub_le n l.length)]

theorem padTo_of_le {n : Nat} {l : List Nat} (h : n ≤ l.length) : padTo n l = l.take n := by
  rw [padTo_eq, show n - l.length = 0 by omega]
  simp

theorem padTo_zero (l : List Nat) : padTo 0 l = [] := rfl

theorem padTo_append {n : Nat} {l r : List Nat} (h : l.length = n) :
    padTo n (l ++ r) = l := by
  rw [padTo, List.append_assoc]
  exact List.take_left' h

theorem take_padTo {m n : Nat} (h : m ≤ n) (l : List Nat) :
    (padTo n l).take m = padTo m l := by
  rw [padTo_eq, padTo_eq, List.take_append_eq_append_take, List.take_take,
    List.take_replicate, List.length_take]
  congr 1
  · rw [Nat.min_eq_left h]
  · congr 1
    omega

theorem padTo_padTo {m n : Nat} (h : m ≤ n) (l : List Nat) :
    padTo m (padTo n l) = padTo m l := by
  rw [padTo_of_le (by rw [padTo_length]; exact h), take_padTo h l]

theorem padTo_magic_ne {l : List Nat} (h : l.take MAGIC_BYTES_SIZE ≠ MAGIC_BYTES) :
    padTo MAGIC_BYTES_SIZE l ≠ MAGIC_BYTES := by
  rw [padTo_eq]
  intro he
  rcases Nat.lt_or_ge l.length MAGIC_BYTES_SIZE with hl | hl
  · rw [List.take_of_length_le (Nat.le_of_lt hl)] at he
    have hd : List.replicate (MAGIC_BYTES_SIZE - l.length) 0 = MAGIC_BYTES.drop l.length := by
      rw [← he, List.drop_left]
    revert hd
    have hl15 : l.length < 15 := hl
    generalize l.length = k at hl15
    intro hd
    interval_cases k <;> exact absurd hd (by decide)
  · rw [show MAGIC_BYTES_SIZE - l.length = 0 by omega] at he
    simp at he
    exact h he

theorem byteToNodeType_value (t : BTreeNodeType) : byteToNodeType t.value = some t := by
  cases t <;> rfl

theorem allocN_total (p : Pager) (k : Nat) : (allocN p k).total_pages = p.total_pages + k := by
  induction k with
  | zero => rfl
  | succ k ih => simp [allocN, Pager.allocate_page, ih]; omega

theorem allocN_file (p : Pager) (k : Nat) : (allocN p k).file = p.file := by
  induction k with
  | zero => rfl
  | succ k ih => simp [allocN, Pager.allocate_page, ih]

theorem openFile_of_ne_nil {contents : List Nat} (h : contents ≠ []) :
    BTree.openFile contents =
      if MAGIC_BYTES = padTo MAGIC_BYTES_SIZE contents then Res.ok ⟨⟨0, contents⟩⟩
      else Res.err ChiError.Ecorruptheader := by
  have hemp : contents.isEmpty = false := by
    cases contents with
    | nil => exact absurd rfl h
    | cons a l => rfl
  rw [BTree.openFile]
  show (if (Pager.openFile contents).is_empty then _ else _) = _
  rw [show (Pager.openFile contents).is_empty = false from hemp, if_neg (by simp)]
  have hv : BTree.validate_header ⟨Pager.openFile contents⟩ =
      (if MAGIC_BYTES = padTo MAGIC_BYTES_SIZE (padTo HEADER_SIZE contents)
        then Except.ok () else Except.error ChiError.Ecorruptheader) := rfl
  rw [hv, padTo_padTo (by decide : MAGIC_BYTES_SIZE ≤ HEADER_SIZE)]
  by_cases hc : MAGIC_BYTES = padTo MAGIC_BYTES_SIZE contents
  · simp only [if_pos hc]
    rfl
  · simp only [if_neg hc]

theorem read_page_iff_err (p : Pager) (n : Nat) :
    p.read_page n = Except.error ChiError.EPageNo ↔ (n = 0 ∨ p.total_pages < n) := by
  rw [Pager.read_page]
  by_cases hc : p.total_pages < n ∨ n = 0
  · rw [if_pos hc]
    simp only [true_iff]
    exact Or.symm hc
  · rw [if_neg hc]
    constructor
    · intro h
      exact Except.noConfusion h
    · intro h
      exact absurd (Or.symm h) hc

/-- C3 (confirmed): for every non-empty file whose first 15 bytes differ from
the fixed magic string, BTree::open fails with Ecorruptheader, whatever the
file length (a file shorter than 15 bytes can never match either, because
the zero-filled tail of the header read differs from the nonzero magic
bytes). -/
theorem c3_corrupt_magic_fails (contents : List Nat) (hne : contents ≠ [])
    (hm : contents.take MAGIC_BYTES_SIZE ≠ MAGIC_BYTES) :
    BTree.openFile contents = Res.err ChiError.Ecorruptheader := by
  rw [openFile_of_ne_nil hne, if_neg (fun he => padTo_magic_ne hm he.symm)]

/-- C3 witness: the all-zero file of exactly header size is rejected with
Ecorruptheader (the scenario of the test test_open_invalid_btree). -/
theorem c3_corrupt_magic_fails_witness :
    (List.replicate HEADER_SIZE 0 ≠ ([] : List Nat)) ∧
    (List.replicate HEADER_SIZE 0).take MAGIC_BYTES_SIZE ≠ MAGIC_BYTES ∧
    BTree.openFile (List.replicate HEADER_SIZE 0) = Res.err ChiError.Ecorruptheader :=
  ⟨by decide, by decide, c3_corrupt_magic_fails _ (by decide) (by decide)⟩

/-- C4 counterexample: a one-byte file is non-empty and shorter than the
100-byte header, yet the header read does not fail with the missing-header
error: it succeeds with the missing tail zero-filled (the NoHeader variant
is never constructed anywhere in the source), and BTree::open then fails
with Ecorruptheader, not NoHeader. -/
theorem c4_counterexample :
    (Pager.openFile [0]).read_header = Except.ok (padTo HEADER_SIZE [0]) ∧
    (Pager.openFile [0]).read_header ≠ Except.error ChiError.NoHeader ∧
    BTree.openFile [0] = Res.err ChiError.Ecorruptheader :=
  ⟨rfl, by decide, by decide⟩

/-- C4 (corrected): reading the header of a non-empty file shorter than the
fixed header size does not fail: the missing tail is zero-filled and the
read succeeds; BTree::open on such a file fails with Ecorruptheader exactly
when the zero-padded first 15 bytes differ from the magic string. -/
theorem c4_short_file_header (contents : List Nat) (hne : contents ≠ [])
    (hlen : contents.length < HEADER_SIZE) :
    (Pager.openFile contents).read_header = Except.ok (padTo HEADER_SIZE contents) ∧
    (BTree.openFile contents = Res.err ChiError.Ecorruptheader ↔
      padTo MAGIC_BYTES_SIZE contents ≠ MAGIC_BYTES) := by
  refine ⟨rfl, ?_⟩
  rw [openFile_of_ne_nil hne]
  constructor
  · intro hopen heq
    rw [if_pos heq.symm] at hopen
    exact Res.noConfusion hopen
  · intro hne2
    rw [if_neg (fun he => hne2 he.symm)]

/-- C4 witness: the amended statement evaluated at the one-byte file. -/
theorem c4_short_file_header_witness :
    (([0] : List Nat) ≠ []) ∧ ([0] : List Nat).length < HEADER_SIZE ∧
    ((Pager.openFile [0]).read_header = Except.ok (padTo HEADER_SIZE [0]) ∧
      (BTree.openFile [0] = Res.err ChiError.Ecorruptheader ↔
        padTo MAGIC_BYTES_SIZE [0] ≠ MAGIC_BYTES)) :=
  ⟨by decide, by decide, c4_short_file_header [0] (by decide) (by decide)⟩

/-- C7 (confirmed): read_page and write_page both reject page number 0 and
any page number above the allocation counter with EPageNo; read_page
returns no page at all for such numbers. -/
theorem c7_page_bounds (p : Pager) (n : Nat) (page : MemPage)
    (hn : n = 0 ∨ p.total_pages < n) (hp : page.n_page = n) :
    p.read_page n = Except.error ChiError.EPageNo ∧
    p.write_page page = Except.error ChiError.EPageNo := by
  constructor
  · rw [Pager.read_page, if_pos (Or.symm hn)]
  · rw [Pager.write_page, hp, if_pos (Or.symm hn)]

/-- C7 witness: page number 5 on a fresh pager with no allocations. -/
theorem c7_page_bounds_witness :
    ((5 : Nat) = 0 ∨ (Pager.openFile []).total_pages < 5) ∧
    (⟨5, 0, []⟩ : MemPage).n_page = 5 ∧
    ((Pager.openFile []).read_page 5 = Except.error ChiError.EPageNo ∧
      (Pager.openFile []).write_page ⟨5, 0, []⟩ = Except.error ChiError.EPageNo) :=
  ⟨by decide, by decide, c7_page_bounds _ _ _ (by decide) (by decide)⟩

/-- C10 (confirmed): Pager::open always starts the in-memory page counter at
0 whatever the file contains, so after BTree::open of an existing non-empty
file every read_page and get_node_by_page call fails with EPageNo, and
after k allocate_page calls in the new session read_page n still fails
exactly when n = 0 or n exceeds k. -/
theorem c10_fresh_counter (contents : List Nat) (bt : BTree) (k n : Nat)
    (hne : contents ≠ []) (hopen : BTree.openFile contents = Res.ok bt) :
    bt.pager.total_pages = 0 ∧
    bt.pager.read_page n = Except.error ChiError.EPageNo ∧
    bt.get_node_by_page n = Res.err ChiError.EPageNo ∧
    ((allocN bt.pager k).read_page n = Except.error ChiError.EPageNo ↔ (n = 0 ∨ k < n)) := by
  rw [openFile_of_ne_nil hne] at hopen
  have hbt : bt = ⟨⟨0, contents⟩⟩ := by
    by_cases hc : MAGIC_BYTES = padTo MAGIC_BYTES_SIZE contents
    · rw [if_pos hc] at hopen
      exact (Res.ok.inj hopen).symm
    · rw [if_neg hc] at hopen
      exact Res.noConfusion hopen
  subst hbt
  have hread : (⟨⟨0, contents⟩⟩ : BTree).pager.read_page n = Except.error ChiError.EPageNo :=
    (read_page_iff_err _ n).mpr (Nat.eq_zero_or_pos n)
  refine ⟨rfl, hread, ?_, ?_⟩
  · simp only [BTree.get_node_by_page, hread]
  · rw [read_page_iff_err, allocN_total]
    have hx : (⟨⟨0, contents⟩⟩ : BTree).pager.total_pages = 0 := rfl
    rw [hx]
    omega

/-- C10 witness: a 15-byte file equal to the magic string opens successfully
and exhibits the reset counter, with k = 2 allocations and n = 3. -/
theorem c10_fresh_counter_witness :
    (MAGIC_BYTES ≠ []) ∧
    BTree.openFile MAGIC_BYTES = Res.ok ⟨⟨0, MAGIC_BYTES⟩⟩ ∧
    ((⟨⟨0, MAGIC_BYTES⟩⟩ : BTree).pager.total_pages = 0 ∧
      (⟨⟨0, MAGIC_BYTES⟩⟩ : BTree).pager.read_page 3 = Except.error ChiError.EPageNo ∧
      (⟨⟨0, MAGIC_BYTES⟩⟩ : BTree).get_node_by_page 3 = Res.err ChiError.EPageNo ∧
      ((allocN (⟨⟨0, MAGIC_BYTES⟩⟩ : BTree).pager 2).read_page 3 =
          Except.error ChiError.EPageNo ↔ ((3 : Nat) = 0 ∨ 2 < 3))) :=
  ⟨by decide, by decide, c10_fresh_counter MAGIC_BYTES _ 2 3 (by decide) (by decide)⟩

/-- C1 counterexample: on an all-zero page the decoded type byte is 0, which
is not one of the four defined kinds, yet load_from_page does not return an
error of any kind: the From impl for BTreeNodeType panics (modelled as the
trap outcome), so in particular the result is not the corrupt-format
error the claim requires. -/
theorem c1_counterexample :
    BTreeNode.load_from_page ⟨2, 0, List.replicate 32 0⟩ = Res.trap ∧
    BTreeNode.load_from_page ⟨2, 0, List.replicate 32 0⟩ ≠ Res.err ChiError.Ecorruptheader :=
  ⟨by decide, by decide⟩

/-- C1 (corrected): when the decoded node-type byte of a page returned by
read_page is not one of 0x05, 0x0D, 0x02, 0x0A, BTreeNode::load_from_page
panics (the From impl for BTreeNodeType hits its panic arm, modelled as
trap) instead of returning an unrecognized-node-type error, and
BTree::get_node_by_page propagates that panic; no default node type is
ever substituted. -/
theorem c1_unknown_type_traps (p : Pager) (n : Nat) (page : MemPage)
    (hr : p.read_page n = Except.ok page)
    (hb : leVal (padTo 1 page.dataAt) ≠ 0x05 ∧ leVal (padTo 1 page.dataAt) ≠ 0x0D ∧
      leVal (padTo 1 page.dataAt) ≠ 0x02 ∧ leVal (padTo 1 page.dataAt) ≠ 0x0A) :
    BTree.get_node_by_page ⟨p⟩ n = Res.trap ∧ BTreeNode.load_from_page page = Res.trap := by
  obtain ⟨h5, h13, h2, h10⟩ := hb
  have hbt : byteToNodeType (leVal (padTo 1 page.dataAt)) = none := by
    rw [byteToNodeType, if_neg h5, if_neg h13, if_neg h2, if_neg h10]
  have hload : BTreeNode.load_from_page page = Res.trap := by
    simp only [BTreeNode.load_from_page, hbt]
  refine ⟨?_, hload⟩
  simp only [BTree.get_node_by_page, hr]
  exact hload

/-- C1 witness: page 1 of a pager over an empty file decodes type byte 0 and
both loaders trap. -/
theorem c1_unknown_type_traps_witness :
    (c1pager.read_page 1 = Except.ok c1pg) ∧
    (leVal (padTo 1 c1pg.dataAt) ≠ 0x05 ∧ leVal (padTo 1 c1pg.dataAt) ≠ 0x0D ∧
      leVal (padTo 1 c1pg.dataAt) ≠ 0x02 ∧ leVal (padTo 1 c1pg.dataAt) ≠ 0x0A) ∧
    (BTree.get_node_by_page ⟨c1pager⟩ 1 = Res.trap ∧
      BTreeNode.load_from_page c1pg = Res.trap) :=
  ⟨rfl, ⟨by decide, by decide, by decide, by decide⟩,
    c1_unknown_type_traps c1pager 1 c1pg rfl ⟨by decide, by decide, by decide, by decide⟩⟩

/-- C2 counterexample: passing a 1-byte buffer to set_data on a full-size
page whose offset is 0 (so page_size - offset = PAGE_SIZE, not 1) does not
fail fast: set_data returns normally (its source body has no check at all)
and silently yields a 1-byte page buffer, truncated relative to
PAGE_SIZE. -/
theorem c2_counterexample :
    ((⟨1, 0, List.replicate PAGE_SIZE 0⟩ : MemPage).set_data [7]).data = [7] ∧
    ([7] : List Nat).length ≠ PAGE_SIZE - 0 :=
  ⟨rfl, by decide⟩

/-- C2 (corrected): set_data performs no length check whatsoever: for every
page and every buffer it succeeds, keeping the first offset bytes and
splicing the buffer behind them, so the resulting buffer length is always
offset + buffer length — a buffer whose length differs from
page_size - offset silently produces a truncated or padded page instead of
trapping. -/
theorem c2_set_data_silent (p : MemPage) (raw : List Nat) (h : p.offset ≤ p.data.length) :
    (p.set_data raw).data.length = p.offset + raw.length ∧
    (p.set_data raw).data.take p.offset = p.data.take p.offset ∧
    (p.set_data raw).data.drop p.offset = raw := by
  refine ⟨?_, ?_, ?_⟩
  · simp only [MemPage.set_data, List.length_append, List.length_take]
    omega
  · simp only [MemPage.set_data]
    rw [List.take_append_of_le_length (by rw [List.length_take]; omega),
      List.take_take, Nat.min_self]
  · simp only [MemPage.set_data]
    exact List.drop_left' (by rw [List.length_take]; omega)

/-- C2 witness: the amended statement evaluated on a 4-byte page with offset
2 and a 1-byte buffer. -/
theorem c2_set_data_silent_witness :
    (c2page.offset ≤ c2page.data.length) ∧
    ((c2page.set_data [7]).data.length = c2page.offset + ([7] : List Nat).length ∧
      (c2page.set_data [7]).data.take c2page.offset = c2page.data.take c2page.offset ∧
      (c2page.set_data [7]).data.drop c2page.offset = [7]) :=
  ⟨by decide, c2_set_data_silent c2page [7] (by decide)⟩

/-- C9 (code_bug): every node BTreeNode::create returns has free_offset = 0,
n_cells = 0, cells_offset = PAGE_SIZE and right_page = 0 as the claim says,
but its celloffset_array field is 0 — BTreeNode::new initializes it to 0
and create never updates it — not the offset just after the fixed node
header fields that the claim, the spec and the repo test
test_create_new_node (celloffset_array == PAGE_HEADER_SIZE) expect. -/
theorem c9_create_scalar_fields (page : MemPage) (typ : BTreeNodeType) (node : BTreeNode)
    (hc : BTreeNode.create page typ = Res.ok node) :
    node.free_offset = 0 ∧ node.n_cells = 0 ∧ node.cells_offset = PAGE_SIZE ∧
      node.right_page = 0 ∧ node.celloffset_array = 0 := by
  rw [BTreeNode.create] at hc
  split at hc
  · exact Res.noConfusion hc
  · injection hc with hc
    rw [← hc]
    exact ⟨rfl, rfl, rfl, rfl, rfl⟩

/-- C9 witness: create on a zero-filled page region returns a node whose
celloffset_array is 0. -/
theorem c9_create_scalar_fields_witness :
    BTreeNode.create c9page BTreeNodeType.LeafTable = Res.ok c9node ∧
    (c9node.free_offset = 0 ∧ c9node.n_cells = 0 ∧ c9node.cells_offset = PAGE_SIZE ∧
      c9node.right_page = 0 ∧ c9node.celloffset_array = 0) :=
  ⟨by decide, c9_create_scalar_fields c9page BTreeNodeType.LeafTable c9node (by decide)⟩

theorem padTo_one_cons (x : Nat) (l : List Nat) : padTo 1 (x :: l) = [x] := rfl

theorem drop_one_cons (x : Nat) (l : List Nat) : (x :: l).drop 1 = l := rfl

theorem leVal_singleton (x : Nat) : leVal [x] = x := by
  simp [leVal]

theorem dataAt_set (p : MemPage) (l : List Nat) (h : p.offset ≤ p.data.length) :
    MemPage.dataAt { p with data := p.data.take p.offset ++ l } = l := by
  simp only [MemPage.dataAt]
  exact List.drop_left' (by rw [List.length_take]; omega)

/-- C5 (confirmed): decoding the 100-byte encoding of a header returns it
field-for-field, for every header whose magic has the fixed 15-byte length
and whose numeric fields fit their u16 and u32 machine widths. -/
theorem c5_header_roundtrip (m : List Nat) (ps fcc sv pcs uc : Nat)
    (hm : m.length = MAGIC_BYTES_SIZE)
    (h1 : ps < 256 ^ 2) (h2 : fcc < 256 ^ 4) (h3 : sv < 256 ^ 4)
    (h4 : pcs < 256 ^ 4) (h5 : uc < 256 ^ 4) :
    BTreeHeader.from_bytes (BTreeHeader.to_bytes ⟨m, ps, fcc, sv, pcs, uc⟩) =
      ⟨m, ps, fcc, sv, pcs, uc⟩ := by
  simp only [BTreeHeader.to_bytes, BTreeHeader.from_bytes, List.append_assoc]
  rw [padTo_append hm, List.drop_left' hm,
    padTo_append (leBytes_length 2 ps), List.drop_left' (leBytes_length 2 ps),
    padTo_append (leBytes_length 4 fcc), List.drop_left' (leBytes_length 4 fcc),
    padTo_append (leBytes_length 4 sv), List.drop_left' (leBytes_length 4 sv),
    padTo_append (leBytes_length 4 pcs), List.drop_left' (leBytes_length 4 pcs),
    padTo_append (leBytes_length 4 uc),
    leVal_leBytes h1, leVal_leBytes h2, leVal_leBytes h3, leVal_leBytes h4, leVal_leBytes h5]

/-- C5 witness: round trip of a concrete header value. -/
theorem c5_header_roundtrip_witness :
    (MAGIC_BYTES.length = MAGIC_BYTES_SIZE) ∧ PAGE_SIZE < 256 ^ 2 ∧ (7 : Nat) < 256 ^ 4 ∧
    (9 : Nat) < 256 ^ 4 ∧ PAGE_CACHE_SIZE_INITIAL < 256 ^ 4 ∧ (3 : Nat) < 256 ^ 4 ∧
    BTreeHeader.from_bytes
        (BTreeHeader.to_bytes ⟨MAGIC_BYTES, PAGE_SIZE, 7, 9, PAGE_CACHE_SIZE_INITIAL, 3⟩) =
      ⟨MAGIC_BYTES, PAGE_SIZE, 7, 9, PAGE_CACHE_SIZE_INITIAL, 3⟩ :=
  ⟨by decide, by decide, by decide, by decide, by decide, by decide,
    c5_header_roundtrip MAGIC_BYTES PAGE_SIZE 7 9 PAGE_CACHE_SIZE_INITIAL 3
      (by decide) (by decide) (by decide) (by decide) (by decide) (by decide)⟩

/-- C6 (confirmed): every node that BTreeNode::create returns loads back from
its page with identical scalar header fields — load_from_page yields the
very same node value (same page, same typ, free_offset, n_cells,
cells_offset, right_page, celloffset_array); freshly allocated zero-filled
pages are the instances whose region create accepts. -/
theorem c6_node_roundtrip (page : MemPage) (typ : BTreeNodeType) (node : BTreeNode)
    (hc : BTreeNode.create page typ = Res.ok node) :
    BTreeNode.load_from_page node.page = Res.ok node := by
  rw [BTreeNode.create] at hc
  split at hc
  · exact Res.noConfusion hc
  · rename_i hge
    injection hc with hc
    subst hc
    have hoff : page.offset ≤ page.data.length := by
      simp only [MemPage.dataAt, List.length_drop] at hge
      omega
    simp only [BTreeNode.new, BTreeNode.load_from_page, Nat.zero_mod]
    rw [dataAt_set page _ hoff]
    simp only [List.append_assoc, padTo_one_cons, drop_one_cons, leVal_singleton,
      padTo_append (leBytes_length 2 0), List.drop_left' (leBytes_length 2 0),
      padTo_append (leBytes_length 2 PAGE_SIZE), List.drop_left' (leBytes_length 2 PAGE_SIZE),
      leVal_leBytes (show (0 : Nat) < 256 ^ 2 by decide),
      leVal_leBytes (show PAGE_SIZE < 256 ^ 2 by decide),
      byteToNodeType_value]

/-- C6 witness: the round trip evaluated on a concrete zero-filled page
region. -/
theorem c6_node_roundtrip_witness :
    BTreeNode.create c6page BTreeNodeType.InternalTable = Res.ok c6node ∧
    BTreeNode.load_from_page c6node.page = Res.ok c6node :=
  ⟨by decide, c6_node_roundtrip c6page BTreeNodeType.InternalTable c6node (by decide)⟩

/-- C8 (confirmed): writing any node whose page was loaded from page 1 back
through BTree::write_node leaves the observable header unchanged:
re-reading the header after the write returns exactly the bytes the header
read returned before the write (set_data preserves the first offset =
header_size + 1 bytes of page 1, and write_page rewrites them in place). -/
theorem c8_header_isolation (p : Pager) (pg : MemPage) (typ : BTreeNodeType)
    (fo nc co rp ca : Nat) (x : BTree × BTreeNode)
    (hr : p.read_page 1 = Except.ok pg)
    (hw : BTree.write_node ⟨p⟩ ⟨pg, typ, fo, nc, co, rp, ca⟩ = Except.ok x) :
    x.1.pager.read_header = p.read_header := by
  rw [Pager.read_page] at hr
  split at hr
  · exact Except.noConfusion hr
  · rename_i hguard
    injection hr with hr
    subst hr
    simp only [BTree.write_node, MemPage.set_data, Pager.write_page, reduceIte,
      Nat.sub_self, Nat.zero_mul, List.drop_zero] at hw
    split at hw
    · exact Except.noConfusion hw
    · injection hw with hw
      subst hw
      rename_i heq
      rw [if_neg hguard] at heq
      injection heq with heq
      subst heq
      rw [Pager.read_header, Pager.read_header]
      dsimp only
      congr 1
      have hA : (List.take (HEADER_SIZE + 1) (padTo PAGE_SIZE p.file)).length
          = HEADER_SIZE + 1 := by
        rw [List.length_take, padTo_length]
        decide
      rw [writeAt, padTo_zero, List.nil_append, Nat.zero_add]
      have hD : HEADER_SIZE + 1 ≤ (List.take (HEADER_SIZE + 1) (padTo PAGE_SIZE p.file) ++
          typ.value :: (leBytes 2 fo ++ leBytes 2 nc ++ leBytes 2 co ++ leBytes 2 rp)).length := by
        rw [List.length_append, hA]
        omega
      rw [padTo_of_le (by rw [List.length_append]; omega)]
      rw [List.take_append_of_le_length (by omega)]
      rw [List.take_append_of_le_length (by rw [hA]; omega)]
      rw [List.take_take, Nat.min_eq_left (by omega)]
      rw [take_padTo (by decide) p.file]

/-- C8 witness: a node loaded from page 1 with its free_offset mutated to 1
is written back and the header read is unchanged. -/
theorem c8_header_isolation_witness :
    (c8pager.read_page 1 = Except.ok c8pg) ∧
    (BTree.write_node ⟨c8pager⟩ c8node = Except.ok c8x) ∧
    c8x.1.pager.read_header = c8pager.read_header :=
  ⟨rfl, rfl, c8_header_isolation c8pager c8pg BTreeNodeType.LeafTable 1 0 PAGE_SIZE 0 0 c8x rfl rfl⟩

end Chidb
